import Mathlib

/-
Verification of the nebu MCP extraction/pipeline engine
(src/mcp/nebu_mcp): a shallow embedding of the Python modules
config.py, tools/extract.py, tools/pipeline.py,
formatters/compact.py and formatters/summary.py, followed by
theorems about the embedded definitions.

Filesystem probing (shutil.which, os.path.isfile, os.access),
subprocess execution and the JSON text parser (json.loads) are
external effects; they enter the embedding as explicit oracle
parameters.  Everything else is translated directly from the
source.  Python exceptions are modelled by Option: a result of
none marks an uncaught exception.
-/

/-- Decoded JSON values, as produced by json.loads for one line of
processor output. -/
inductive Json where
  | null : Json
  | bool (b : Bool) : Json
  | num (n : Int) : Json
  | str (s : String) : Json
  | arr (xs : List Json) : Json
  | obj (kvs : List (String × Json)) : Json

/-- The single-quote character (used in composed shell commands). -/
def sqC : Char := Char.ofNat 39

/-- The backslash character. -/
def bsC : Char := Char.ofNat 92

/-- The single quote as a one-character string. -/
def sqS : String := String.singleton sqC

mutual

/-- Structural equality of JSON values, modelling the Python
equality used by dict/Counter keys. -/
def Json.beq : Json → Json → Bool
  | .null, .null => true
  | .bool a, .bool c => a == c
  | .num a, .num c => a == c
  | .str a, .str c => a == c
  | .arr a, .arr c => Json.beqL a c
  | .obj a, .obj c => Json.beqKV a c
  | _, _ => false

/-- Elementwise JSON equality on lists. -/
def Json.beqL : List Json → List Json → Bool
  | [], [] => true
  | x :: xs, y :: ys => Json.beq x y && Json.beqL xs ys
  | _, _ => false

/-- Elementwise JSON equality on key-value lists. -/
def Json.beqKV : List (String × Json) → List (String × Json) → Bool
  | [], [] => true
  | (k1, v1) :: xs, (k2, v2) :: ys =>
      k1 == k2 && Json.beq v1 v2 && Json.beqKV xs ys
  | _, _ => false

end

/-- Lookup of a key in a JSON object (Python dict indexing; keys of a
decoded dict are unique, and lookup takes the first match). -/
def dictGet (kvs : List (String × Json)) (k : String) : Option Json :=
  match kvs with
  | [] => none
  | (k2, v) :: rest => if k2 = k then some v else dictGet rest k

/-- Whether a pattern occurs as a contiguous subsequence of a
character list (the Python substring test pat in s). -/
def subOccurs (pat : List Char) : List Char → Bool
  | [] => pat.isPrefixOf []
  | c :: cs => pat.isPrefixOf (c :: cs) || subOccurs pat cs

/-- The Python substring test pat in s on strings. -/
def containsSub (s pat : String) : Bool :=
  subOccurs pat.data s.data

/-- The pipe character that separates pipeline stages. -/
def pipeC : Char := Char.ofNat 124

/-- The newline character that separates emitted event lines. -/
def nlC : Char := Char.ofNat 10

/-- Split of a character list at every occurrence of a separator
character (Python str.split(sep) for a one-character sep; the result
always has at least one piece, so splitting the empty string yields a
singleton holding the empty piece). -/
def splitChar (sep : Char) : List Char → List (List Char)
  | [] => [[]]
  | c :: cs =>
      if c = sep then [] :: splitChar sep cs
      else
        match splitChar sep cs with
        | [] => [[c]]
        | g :: gs => (c :: g) :: gs

/-- Python str.split(sep) on strings, for a one-character sep. -/
def pySplitOnChar (sep : Char) (s : String) : List String :=
  (splitChar sep s.data).map String.mk

/-- Removal of leading whitespace characters. -/
def dropWhileWs : List Char → List Char
  | [] => []
  | c :: cs => if c.isWhitespace then dropWhileWs cs else c :: cs

/-- Python str.strip(): remove leading and trailing whitespace. -/
def pyStrip (s : String) : String :=
  String.mk ((dropWhileWs (dropWhileWs s.data).reverse).reverse)

/-- Python sep.join(xs). -/
def pyJoin (sep : String) : List String → String
  | [] => ""
  | [x] => x
  | x :: xs => x ++ sep ++ pyJoin sep xs

/-- Python str.lower(), on the character data. -/
def pyLower (s : String) : String :=
  String.mk (s.data.map Char.toLower)

/-- The Python membership test (key in value) for a string key: key
lookup on a dict, substring test on a string, elementwise equality on
a list; none models the TypeError raised on the other values. -/
def pyContains (key : String) (v : Json) : Option Bool :=
  match v with
  | .obj o => some (dictGet o key).isSome
  | .str s => some (containsSub s key)
  | .arr xs => some (xs.any fun x => Json.beq x (.str key))
  | _ => none

/-- The Python subscript value[key] for a string key: defined on a
dict; none models the TypeError raised when value is not a dict (the
sources subscript only after a membership test, so KeyError on a dict
never occurs on the paths we model). -/
def pySubscript (v : Json) (key : String) : Option Json :=
  match v with
  | .obj o => dictGet o key
  | _ => none

/-- The Python call value.get(key, default): defined on a dict; none
models the AttributeError raised when value is not a dict. -/
def pyGetDefault (v : Json) (key : String) (d : Json) : Option Json :=
  match v with
  | .obj o => some ((dictGet o key).getD d)
  | _ => none

/-- Split of a character list at every whitespace character, keeping
empty pieces. -/
def splitWsAll : List Char → List (List Char)
  | [] => [[]]
  | c :: cs =>
      if c.isWhitespace then [] :: splitWsAll cs
      else
        match splitWsAll cs with
        | [] => [[c]]
        | g :: gs => (c :: g) :: gs

/-- Python str.split() with no argument: split on whitespace and drop
empty pieces. -/
def pySplitWs (s : String) : List String :=
  ((splitWsAll s.data).map String.mk).filter (· ≠ "")

/-- Replacement of every occurrence of a character by a string inside
a character list (Python str.replace with a one-character pattern). -/
def replChar (old : Char) (new : List Char) : List Char → List Char
  | [] => []
  | c :: cs =>
      if c = old then new ++ replChar old new cs
      else c :: replChar old new cs

/-- Python str.replace(old, new) for a one-character old string. -/
def pyReplaceChar (s : String) (old : Char) (new : String) : String :=
  String.mk (replChar old new.data s.data)

/-- Replacement of the first occurrence of a pattern inside a
character list (Python str.replace(old, new, 1)). -/
def replace1Aux (old new : List Char) : List Char → List Char
  | [] => []
  | c :: cs =>
      if old.isPrefixOf (c :: cs) then new ++ (c :: cs).drop old.length
      else c :: replace1Aux old new cs

/-- Python str.replace(old, new, 1): replace the first occurrence of
old in s by new. -/
def pyReplace1 (s old new : String) : String :=
  String.mk (replace1Aux old.data new.data s.data)

/-- Configuration constant DEFAULT_LIMIT from config.py. -/
def DEFAULT_LIMIT : Int := 100

/-- Configuration constant MAX_LIMIT from config.py. -/
def MAX_LIMIT : Int := 1000

/-- Configuration constant MAX_LEDGER_RANGE from config.py. -/
def MAX_LEDGER_RANGE : Int := 100

/-- Configuration constant FORMAT_FULL from config.py. -/
def FORMAT_FULL : String := "full"

/-- Configuration constant FORMAT_COMPACT from config.py. -/
def FORMAT_COMPACT : String := "compact"

/-- Configuration constant FORMAT_SUMMARY from config.py. -/
def FORMAT_SUMMARY : String := "summary"

/-- Timeout constant EXTRACTION_TIMEOUT from tools/extract.py. -/
def EXTRACTION_TIMEOUT : Int := 120

/-- Oracle for the filesystem state consulted by find_processor:
whether shutil.which finds a name on the search path, whether a path
is an existing executable file (os.path.isfile plus os.access with
X_OK), and the expansion of the home directory. -/
structure FS where
  which : String → Bool
  isExec : String → Bool
  home : String

/-- Embedding of find_processor from tools/extract.py: search-path
lookup first (returning the bare name when found), then the common
install directories in order, returning the first existing
executable, and none when every probe fails. -/
def find_processor (fs : FS) (name : String) : Option String :=
  if fs.which name then some name
  else
    ([fs.home ++ "/go/bin/" ++ name,
      fs.home ++ "/.local/bin/" ++ name,
      "/usr/local/bin/" ++ name]).find? fs.isExec

/-- Error object returned by both tools when end_ledger < start_ledger. -/
def rangeInvertedObj : List (String × Json) :=
  [("error", Json.str "end_ledger must be >= start_ledger")]

/-- Error object returned by extract_events when the ledger range
exceeds MAX_LEDGER_RANGE. -/
def rangeTooLargeExtractObj (start_ledger end_ledger : Int) :
    List (String × Json) :=
  [("error", Json.str ("Ledger range too large ("
      ++ toString (end_ledger - start_ledger) ++ "). Maximum is "
      ++ toString MAX_LEDGER_RANGE ++ " ledgers per call.")),
   ("suggestion", Json.str ("Try a smaller range: --start-ledger "
      ++ toString start_ledger ++ " --end-ledger "
      ++ toString (start_ledger + MAX_LEDGER_RANGE)))]

/-- Error object returned by run_pipeline when the ledger range
exceeds MAX_LEDGER_RANGE. -/
def rangeTooLargePipelineObj (start_ledger end_ledger : Int) :
    List (String × Json) :=
  [("error", Json.str ("Ledger range too large ("
      ++ toString (end_ledger - start_ledger) ++ "). Maximum is "
      ++ toString MAX_LEDGER_RANGE ++ " ledgers per call.")),
   ("suggestion", Json.str ("Try a smaller range: start="
      ++ toString start_ledger ++ " end="
      ++ toString (start_ledger + MAX_LEDGER_RANGE)))]

/-- Error object returned by extract_events when the processor name
does not resolve anywhere. -/
def processorNotFoundObj (processor : String) : List (String × Json) :=
  [("error", Json.str ("Processor " ++ sqS ++ processor ++ sqS
      ++ " not found")),
   ("suggestion", Json.str ("Install with: nebu install " ++ processor)),
   ("searched", Json.arr [Json.str "PATH", Json.str "~/go/bin",
      Json.str "~/.local/bin", Json.str "/usr/local/bin"])]

/-- Error object returned by run_pipeline when the first stage
processor name does not resolve anywhere. -/
def firstProcessorNotFoundObj (name : String) : List (String × Json) :=
  [("error", Json.str ("First processor " ++ sqS ++ name ++ sqS
      ++ " not found")),
   ("suggestion", Json.str ("Install with: nebu install " ++ name))]

/-- The replacement text used when escaping a single quote inside the
jq filter: a quote, a backslash-escaped quote, and a reopening quote. -/
def escSeq : String := String.mk [sqC, bsC, sqC, sqC]

/-- Embedding of lines 67 to 105 of tools/extract.py: ledger-range
validation, processor resolution, limit clamping and command
composition, exactly in source order.  Returns the error object of
the failing early return, or the composed shell command together
with the clamped limit. -/
def extractPrepare (fs : FS) (processor : String)
    (start_ledger end_ledger : Int) (filter : Option String)
    (limit : Int) : Except (List (String × Json)) (String × Int) :=
  let ledger_range := end_ledger - start_ledger
  if ledger_range < 0 then .error rangeInvertedObj
  else if ledger_range > MAX_LEDGER_RANGE then
    .error (rangeTooLargeExtractObj start_ledger end_ledger)
  else
    match find_processor fs processor with
    | none => .error (processorNotFoundObj processor)
    | some processor_path =>
      let limit := min limit MAX_LIMIT
      let cmd := processor_path ++ " --start-ledger "
          ++ toString start_ledger ++ " --end-ledger "
          ++ toString end_ledger ++ " -q"
      let cmd :=
        match filter with
        | some f =>
            if f ≠ "" then
              cmd ++ " | jq -c " ++ sqS ++ pyReplaceChar f sqC escSeq ++ sqS
            else cmd
        | none => cmd
      .ok (cmd ++ " | head -" ++ toString limit, limit)

/-- Embedding of the stage-resolution loop of run_pipeline (lines 81
to 89 of tools/pipeline.py): strip each later stage, skip the empty
ones, and rewrite the leading token of a stage to its resolved path
when resolution succeeds, keeping the stage text unchanged when it
fails.  A stage whose first-token extraction would raise IndexError
yields none (unreachable for nonempty stripped stages). -/
def resolveRest (fs : FS) : List String → Option (List String)
  | [] => some []
  | part :: rest =>
      let p := pyStrip part
      if p = "" then resolveRest fs rest
      else
        match (pySplitWs p).head? with
        | none => none
        | some proc_name =>
          let p :=
            match find_processor fs proc_name with
            | some proc_path => pyReplace1 p proc_name proc_path
            | none => p
          (resolveRest fs rest).map (p :: ·)

/-- Embedding of lines 39 to 94 of tools/pipeline.py: ledger-range
validation, limit clamping, pipeline parsing, first-stage resolution
and command composition, exactly in source order.  The outer Option
models uncaught exceptions (the IndexError raised by
parts[0].strip().split()[0] when the first stage is empty); the
Except layer separates error objects of early returns from the
composed command with the clamped limit. -/
def pipelinePrepare (fs : FS) (pipeline : String)
    (start_ledger end_ledger : Int) (limit : Int) :
    Option (Except (List (String × Json)) (String × Int)) :=
  let ledger_range := end_ledger - start_ledger
  if ledger_range < 0 then some (.error rangeInvertedObj)
  else if ledger_range > MAX_LEDGER_RANGE then
    some (.error (rangeTooLargePipelineObj start_ledger end_ledger))
  else
    let limit := min limit MAX_LIMIT
    match pySplitOnChar pipeC (pyStrip pipeline) with
    | [] => some (.error [("error", Json.str "Empty pipeline")])
    | p0 :: restParts =>
      let first_processor_cmd := pyStrip p0
      let rest_of_pipeline :=
        pyJoin " | " (restParts.map pyStrip)
      match (pySplitWs first_processor_cmd).head? with
      | none => none
      | some first_processor_name =>
        match find_processor fs first_processor_name with
        | none =>
            some (.error (firstProcessorNotFoundObj first_processor_name))
        | some processor_path =>
          let first_processor_cmd :=
            pyReplace1 first_processor_cmd first_processor_name
              processor_path
          let cmd := first_processor_cmd ++ " --start-ledger "
              ++ toString start_ledger ++ " --end-ledger "
              ++ toString end_ledger ++ " -q"
          let step : Option String :=
            if rest_of_pipeline ≠ "" then
              match resolveRest fs restParts with
              | none => none
              | some resolved_rest =>
                  some (if resolved_rest ≠ [] then
                      cmd ++ " | " ++ pyJoin " | " resolved_rest
                    else cmd)
            else some cmd
          match step with
          | none => none
          | some cmd => some (.ok (cmd ++ " | head -" ++ toString limit, limit))

/-- The fixed ordered list of event-kind keys checked by both
formatters. -/
def kindKeys : List String := ["transfer", "mint", "burn", "clawback", "fee"]

/-- Embedding of the kind-detection loop shared by the formatters
(lines 19 to 23 of formatters/compact.py): walk the ordered key list
and return the first key the event contains; some none when no key
matches, none when the membership test itself raises. -/
def findKindAux (event : Json) : List String → Option (Option String)
  | [] => some none
  | t :: ts =>
      match pyContains t event with
      | none => none
      | some true => some (some t)
      | some false => findKindAux event ts

/-- One field-copy step of compact_event: when the source key is in
the event-kind data, append its value under the destination key. -/
def fieldStep (ed : Json) (srcKey dstKey : String)
    (r : List (String × Json)) : Option (List (String × Json)) :=
  match pyContains srcKey ed with
  | none => none
  | some false => some r
  | some true =>
      (pySubscript ed srcKey).map fun v => r ++ [(dstKey, v)]

/-- The ledger field step of compact_event (lines 29 to 31 of
formatters/compact.py). -/
def metaLedgerStep (meta : Json) (r : List (String × Json)) :
    Option (List (String × Json)) :=
  match pyContains "ledgerSequence" meta with
  | none => none
  | some false => some r
  | some true =>
      (pySubscript meta "ledgerSequence").map fun v => r ++ [("ledger", v)]

/-- The shortened transaction hash step of compact_event (lines 34
to 35 of formatters/compact.py): the first 12 characters of
meta.txHash with an ellipsis marker appended; a non-string hash
raises. -/
def metaTxStep (meta : Json) (r : List (String × Json)) :
    Option (List (String × Json)) :=
  match pyContains "txHash" meta with
  | none => none
  | some false => some r
  | some true =>
      match pySubscript meta "txHash" with
      | some (.str s) =>
          some (r ++ [("tx", Json.str (String.mk (s.data.take 12) ++ "..."))])
      | _ => none

/-- The kind-specific field steps of compact_event (lines 38 to 48
of formatters/compact.py). -/
def evtFieldsStep (event : Json) (event_type : Option String)
    (r : List (String × Json)) : Option (List (String × Json)) :=
  match event_type with
  | none => some r
  | some t =>
      match pyContains t event with
      | none => none
      | some false => some r
      | some true =>
          (pySubscript event t).bind fun evt_data =>
          (fieldStep evt_data "from" "from" r).bind fun r1 =>
          (fieldStep evt_data "to" "to" r1).bind fun r2 =>
          (fieldStep evt_data "amount" "amount" r2).bind fun r3 =>
          fieldStep evt_data "assetCode" "asset" r3

/-- Embedding of compact_event from formatters/compact.py: detect the
event kind by the ordered key list (first match wins), then append,
in source order, the ledger sequence, the shortened transaction hash
and the kind-specific fields that are present.  The result dict is
built in insertion order; none models an uncaught exception. -/
def compact_event (event : Json) : Option (List (String × Json)) :=
  (findKindAux event kindKeys).bind fun event_type =>
  let r : List (String × Json) :=
    match event_type with
    | some t => [("type", Json.str t)]
    | none => []
  (pyGetDefault event "meta" (Json.obj [])).bind fun meta =>
  (metaLedgerStep meta r).bind fun r1 =>
  (metaTxStep meta r1).bind fun r2 =>
  evtFieldsStep event event_type r2

/-- A Python Counter, in insertion order, with an explicit key
equality (Counter keys compare by Python equality). -/
def bumpBy (eqb : α → α → Bool) (c : List (α × Nat)) (k : α) :
    List (α × Nat) :=
  match c with
  | [] => [(k, 1)]
  | (k2, n) :: rest =>
      if eqb k2 k then (k2, n + 1) :: rest
      else (k2, n) :: bumpBy eqb rest k

/-- Whether a JSON value may be used as a Counter key (Python lists
and dicts are unhashable and raise). -/
def jsonHashable : Json → Bool
  | .arr _ => false
  | .obj _ => false
  | _ => true

/-- One iteration of the per-event loop of summarize_events (lines 25
to 35 of formatters/summary.py): find the first kind key the event
contains (with a break after the first match), and return the matched
kind with the asset-code value, defaulted to the literal string
unknown; some none when no kind key matches, none when a membership
test, an attribute access or a Counter update raises. -/
def sumStep (event : Json) : List String → Option (Option (String × Json))
  | [] => some none
  | t :: ts =>
      match pyContains t event with
      | none => none
      | some false => sumStep event ts
      | some true =>
          (pyGetDefault event t (Json.obj [])).bind fun evt_data =>
          (pyGetDefault evt_data "assetCode" (Json.str "unknown")).bind
            fun asset =>
          if jsonHashable asset then some (some (t, asset)) else none

/-- The event loop of summarize_events: thread the two counters over
the event list. -/
def summAux (fuelEvents : List Json) (tc : List (String × Nat))
    (ac : List (Json × Nat)) :
    Option (List (String × Nat) × List (Json × Nat)) :=
  match fuelEvents with
  | [] => some (tc, ac)
  | event :: rest =>
      match sumStep event kindKeys with
      | none => none
      | some none => summAux rest tc ac
      | some (some (t, asset)) =>
          summAux rest (bumpBy (fun a b => a == b) tc t)
            (bumpBy Json.beq ac asset)

/-- The summary result value built by summarize_events. -/
structure Summary where
  total_events : Nat
  by_type : List (String × Nat)
  by_asset : List (Json × Nat)
  ledger_range : Int × Int
  truncated : Bool

/-- Embedding of summarize_events from formatters/summary.py:
count matched events by first matching kind and by asset code, and
assemble the summary object; none models an uncaught exception. -/
def summarize_events (events : List Json)
    (start_ledger end_ledger limit : Int) : Option Summary :=
  (summAux events [] []).map fun tcac =>
    { total_events := events.length
      by_type := tcac.1
      by_asset := tcac.2
      ledger_range := (start_ledger, end_ledger)
      truncated := decide (limit ≤ (events.length : Int)) }

/-- A structured tool response: either a plain JSON-like object (the
error returns and the full/compact successes) or the summary value. -/
inductive Resp where
  | obj (fields : List (String × Json)) : Resp
  | summary (s : Summary) : Resp

/-- Embedding of the output-formatting tail of extract_events (lines
148 to 164 of tools/extract.py), applied to the decoded event list
and the clamped limit. -/
def formatExtract (events : List Json)
    (start_ledger end_ledger limit : Int) (format : String) :
    Option Resp :=
  let truncated := decide (limit ≤ (events.length : Int))
  if format = FORMAT_SUMMARY then
    (summarize_events events start_ledger end_ledger limit).map
      Resp.summary
  else if format = FORMAT_COMPACT then
    (events.mapM compact_event).map fun ce =>
      Resp.obj [("events", Json.arr (ce.map Json.obj)),
        ("count", Json.num events.length),
        ("truncated", Json.bool truncated)]
  else
    some (Resp.obj [("events", Json.arr events),
      ("count", Json.num events.length),
      ("truncated", Json.bool truncated)])

/-- Embedding of the output-formatting tail of run_pipeline (lines
132 to 150 of tools/pipeline.py): as for extract_events, with the
original pipeline text echoed in the non-summary responses. -/
def formatPipeline (events : List Json) (pipeline : String)
    (start_ledger end_ledger limit : Int) (format : String) :
    Option Resp :=
  let truncated := decide (limit ≤ (events.length : Int))
  if format = FORMAT_SUMMARY then
    (summarize_events events start_ledger end_ledger limit).map
      Resp.summary
  else if format = FORMAT_COMPACT then
    (events.mapM compact_event).map fun ce =>
      Resp.obj [("events", Json.arr (ce.map Json.obj)),
        ("count", Json.num events.length),
        ("pipeline", Json.str pipeline),
        ("truncated", Json.bool truncated)]
  else
    some (Resp.obj [("events", Json.arr events),
      ("count", Json.num events.length),
      ("pipeline", Json.str pipeline),
      ("truncated", Json.bool truncated)])

/-- Result of one child-process run: captured stdout and stderr text
and the exit code.  The execution oracle maps a composed command to
none on timeout and to such a result on completion. -/
structure ExecResult where
  stdout : String
  stderr : String
  returncode : Int

/-- Embedding of the event-decoding loop shared by both tools (lines
140 to 146 of tools/extract.py): strip the captured output, split it
into lines, and parse each nonempty line with the JSON text parser,
silently dropping lines that fail to parse.  The parser json.loads is
the loads oracle (none models JSONDecodeError). -/
def decodeEvents (loads : String → Option Json) (out : String) :
    List Json :=
  (pySplitOnChar nlC (pyStrip out)).foldr
    (fun line acc =>
      if line = "" then acc
      else
        match loads line with
        | some j => j :: acc
        | none => acc)
    []

/-- Embedding of extract_events from tools/extract.py over the three
oracles: validation and composition, execution with timeout handling,
the missing-processor diagnosis on a nonzero exit, event decoding and
output formatting. -/
def extract_events (fs : FS) (exec : String → Option ExecResult)
    (loads : String → Option Json) (processor : String)
    (start_ledger end_ledger : Int) (filter : Option String)
    (limit : Int) (format : String) : Option Resp :=
  match extractPrepare fs processor start_ledger end_ledger filter limit with
  | .error obj => some (.obj obj)
  | .ok (cmd, limit) =>
    match exec cmd with
    | none =>
        some (.obj [("error", Json.str ("Extraction timed out after "
            ++ toString EXTRACTION_TIMEOUT ++ "s")),
          ("suggestion", Json.str "Try a smaller ledger range or fewer events")])
    | some r =>
      if r.returncode ≠ 0 then
        if containsSub (pyLower r.stderr) "not found"
            || containsSub (pyLower r.stderr) "command not found" then
          some (.obj [("error", Json.str ("Processor " ++ sqS ++ processor
              ++ sqS ++ " not found or not installed")),
            ("suggestion", Json.str ("Install the processor with: nebu install "
              ++ processor))])
        else
          some (.obj [("error", Json.str ("Extraction failed: "
              ++ pyStrip r.stderr))])
      else
        formatExtract (decodeEvents loads r.stdout) start_ledger end_ledger
          limit format

/-- Embedding of run_pipeline from tools/pipeline.py over the three
oracles: validation, parsing and composition, execution with timeout
handling, event decoding and output formatting; none models an
uncaught exception in the composition phase. -/
def run_pipeline (fs : FS) (exec : String → Option ExecResult)
    (loads : String → Option Json) (pipeline : String)
    (start_ledger end_ledger : Int) (limit : Int) (format : String) :
    Option Resp :=
  match pipelinePrepare fs pipeline start_ledger end_ledger limit with
  | none => none
  | some (.error obj) => some (.obj obj)
  | some (.ok (cmd, limit)) =>
    match exec cmd with
    | none =>
        some (.obj [("error", Json.str ("Pipeline timed out after "
            ++ toString EXTRACTION_TIMEOUT ++ "s")),
          ("suggestion", Json.str "Try a smaller ledger range or simpler pipeline")])
    | some r =>
      if r.returncode ≠ 0 then
        some (.obj [("error", Json.str ("Pipeline failed: " ++ pyStrip r.stderr))])
      else
        formatPipeline (decodeEvents loads r.stdout) pipeline start_ledger
          end_ledger limit format

/-- The truncated flag carried by a response, when one is present. -/
def truncOf : Resp → Option Bool
  | .obj fields =>
      match dictGet fields "truncated" with
      | some (.bool b) => some b
      | _ => none
  | .summary s => some s.truncated

mutual

/-- A single POSIX-shell word read from the given characters in
unquoted mode, with the quoting constructs the composed command uses:
single-quoted regions (everything literal up to the closing quote)
and backslash-escapes outside quotes.  The result is some w when the
whole input forms exactly one word with value w; it is none when the
word ends early (unquoted whitespace or an unquoted pipe would start
a new token or a new stage) or a quote is left unterminated. -/
def shellWordU : List Char → Option (List Char)
  | [] => some []
  | c :: rest =>
      if c = sqC then shellWordQ rest
      else if c = bsC then
        match rest with
        | [] => none
        | d :: rest2 => (shellWordU rest2).map (d :: ·)
      else if c.isWhitespace || c = Char.ofNat 124 then none
      else (shellWordU rest).map (c :: ·)

/-- Continuation of shellWordU inside a single-quoted region: every
character up to the closing quote is literal. -/
def shellWordQ : List Char → Option (List Char)
  | [] => none
  | c :: rest =>
      if c = sqC then shellWordU rest
      else (shellWordQ rest).map (c :: ·)

end

/-- Sum of the counts held in a counter. -/
def sumCounts (c : List (α × Nat)) : Nat := (c.map Prod.snd).sum

/-- Whether the summary loop matches an event: the event carries at
least one kind key, so it is counted in by_type and in by_asset. -/
def summMatched (event : Json) : Bool :=
  match sumStep event kindKeys with
  | some (some _) => true
  | _ => false

/-- A filesystem on which no processor name resolves anywhere. -/
def fsNone : FS := ⟨fun _ => false, fun _ => false, "/home/user"⟩

/-- A filesystem on which exactly the name a resolves (on the search
path, so find_processor returns the bare name). -/
def fsOnlyA : FS := ⟨fun n => n == "a", fun _ => false, "/home/user"⟩

/-- A filesystem on which exactly the name p resolves (on the search
path, so find_processor returns the bare name). -/
def fsOnlyP : FS := ⟨fun n => n == "p", fun _ => false, "/home/user"⟩

/-- An execution oracle under which every spawned command times out;
used to show results that must be reached without spawning. -/
def execNone : String → Option ExecResult := fun _ => none

/-- A JSON text parser oracle that accepts nothing. -/
def loadsNone : String → Option Json := fun _ => none

/-- Incrementing a counter entry raises the total count by one. -/
theorem sumCounts_bumpBy (eqb : α → α → Bool) (c : List (α × Nat)) (k : α) :
    sumCounts (bumpBy eqb c k) = sumCounts c + 1 := by
  induction c with
  | nil => simp [bumpBy, sumCounts]
  | cons hd tl ih =>
      obtain ⟨k2, n⟩ := hd
      by_cases h : eqb k2 k
      · simp [bumpBy, h, sumCounts]
        omega
      · simp [bumpBy, h, sumCounts] at ih ⊢
        omega

/-- Invariant of the summarize_events loop: on success, each counter
total grows by exactly the number of matched events. -/
theorem summAux_sums (events : List Json) :
    ∀ tc ac tc2 ac2, summAux events tc ac = some (tc2, ac2) →
      sumCounts tc2 = sumCounts tc + events.countP summMatched ∧
      sumCounts ac2 = sumCounts ac + events.countP summMatched := by
  induction events with
  | nil =>
      intro tc ac tc2 ac2 h
      simp [summAux] at h
      simp [h.1, h.2]
  | cons ev rest ih =>
      intro tc ac tc2 ac2 h
      rw [summAux] at h
      cases hstep : sumStep ev kindKeys with
      | none => rw [hstep] at h; exact absurd h (by simp)
      | some o =>
          rw [hstep] at h
          cases o with
          | none =>
              have := ih tc ac tc2 ac2 h
              simp [List.countP_cons, summMatched, hstep] at this ⊢
              omega
          | some p =>
              obtain ⟨t, asset⟩ := p
              have := ih _ _ tc2 ac2 h
              simp [List.countP_cons, summMatched, hstep,
                sumCounts_bumpBy] at this ⊢
              omega

/-- A field-copy step only appends to the accumulated result. -/
theorem fieldStep_shape (ed : Json) (a b : String)
    (r r2 : List (String × Json)) (h : fieldStep ed a b r = some r2) :
    ∃ tl, r2 = r ++ tl := by
  unfold fieldStep at h
  cases hc : pyContains a ed with
  | none => rw [hc] at h; exact absurd h (by simp)
  | some bv =>
      rw [hc] at h
      cases bv with
      | false => exact ⟨[], by simp at h; simp [h.symm]⟩
      | true =>
          cases hs : pySubscript ed a with
          | none => rw [hs] at h; exact absurd h (by simp)
          | some v =>
              rw [hs] at h
              simp at h
              exact ⟨[(b, v)], h.symm⟩

/-- The ledger step only appends to the accumulated result. -/
theorem metaLedgerStep_shape (meta : Json) (r r2 : List (String × Json))
    (h : metaLedgerStep meta r = some r2) : ∃ tl, r2 = r ++ tl := by
  unfold metaLedgerStep at h
  cases hc : pyContains "ledgerSequence" meta with
  | none => rw [hc] at h; exact absurd h (by simp)
  | some bv =>
      rw [hc] at h
      cases bv with
      | false => exact ⟨[], by simp at h; simp [h.symm]⟩
      | true =>
          cases hs : pySubscript meta "ledgerSequence" with
          | none => rw [hs] at h; exact absurd h (by simp)
          | some v =>
              rw [hs] at h
              simp at h
              exact ⟨[("ledger", v)], h.symm⟩

/-- The transaction-hash step only appends to the accumulated result. -/
theorem metaTxStep_shape (meta : Json) (r r2 : List (String × Json))
    (h : metaTxStep meta r = some r2) : ∃ tl, r2 = r ++ tl := by
  unfold metaTxStep at h
  cases hc : pyContains "txHash" meta with
  | none => rw [hc] at h; exact absurd h (by simp)
  | some bv =>
      rw [hc] at h
      cases bv with
      | false => exact ⟨[], by simp at h; simp [h.symm]⟩
      | true =>
          cases hs : pySubscript meta "txHash" with
          | none => rw [hs] at h; exact absurd h (by simp)
          | some v =>
              cases v with
              | str s =>
                  rw [hs] at h
                  simp at h
                  exact ⟨[("tx", Json.str (String.mk (s.data.take 12) ++ "..."))],
                    h.symm⟩
              | null => rw [hs] at h; exact absurd h (by simp)
              | bool b => rw [hs] at h; exact absurd h (by simp)
              | num n => rw [hs] at h; exact absurd h (by simp)
              | arr xs => rw [hs] at h; exact absurd h (by simp)
              | obj kvs => rw [hs] at h; exact absurd h (by simp)

/-- The kind-specific field steps only append to the accumulated
result. -/
theorem evtFieldsStep_shape (event : Json) (et : Option String)
    (r r2 : List (String × Json)) (h : evtFieldsStep event et r = some r2) :
    ∃ tl, r2 = r ++ tl := by
  cases et with
  | none => simp [evtFieldsStep] at h; exact ⟨[], by simp [h.symm]⟩
  | some t =>
      simp only [evtFieldsStep] at h
      cases hc : pyContains t event with
      | none => rw [hc] at h; exact absurd h (by simp)
      | some bv =>
          rw [hc] at h
          cases bv with
          | false => simp at h; exact ⟨[], by simp [h.symm]⟩
          | true =>
              simp only [Option.bind_eq_some] at h
              obtain ⟨ed, _, h⟩ := h
              obtain ⟨r1, h1, h⟩ := h
              obtain ⟨rr2, h2, h⟩ := h
              obtain ⟨r3, h3, h4⟩ := h
              obtain ⟨t1, e1⟩ := fieldStep_shape _ _ _ _ _ h1
              obtain ⟨t2, e2⟩ := fieldStep_shape _ _ _ _ _ h2
              obtain ⟨t3, e3⟩ := fieldStep_shape _ _ _ _ _ h3
              obtain ⟨t4, e4⟩ := fieldStep_shape _ _ _ _ _ h4
              exact ⟨t1 ++ t2 ++ t3 ++ t4, by
                subst e1 e2 e3 e4; simp⟩

/-- Characters of the quote-escape replacement text. -/
theorem escSeq_data : escSeq.data = [sqC, bsC, sqC, sqC] := rfl

/-- When exactly one kind key of the checked list is present in an
object, the kind-detection loop returns that key. -/
theorem findKindAux_filter (o : List (String × Json)) (k : String) :
    ∀ ks : List String, ks.filter (fun t => (dictGet o t).isSome) = [k] →
      findKindAux (Json.obj o) ks = some (some k) := by
  intro ks
  induction ks with
  | nil => intro h; simp at h
  | cons t ts ih =>
      intro h
      have hpc : pyContains t (Json.obj o) = some (dictGet o t).isSome := rfl
      by_cases hp : (dictGet o t).isSome
      · rw [List.filter_cons_of_pos (by simp [hp])] at h
        obtain ⟨h1, _⟩ := List.cons.inj h
        subst h1
        simp [findKindAux, hpc, hp]
      · rw [List.filter_cons_of_neg (by simp [hp])] at h
        have hrec := ih h
        simp only [findKindAux, hpc]
        simp only [Bool.not_eq_true] at hp
        rw [hp]
        exact hrec

/-- The result dict of compact_event starts with the detected type
entry when the event object carries exactly one kind key. -/
theorem compact_event_type_head (o : List (String × Json)) (k : String)
    (hf : kindKeys.filter (fun t => (dictGet o t).isSome) = [k])
    (r : List (String × Json)) (h : compact_event (Json.obj o) = some r) :
    ∃ tl, r = ("type", Json.str k) :: tl := by
  unfold compact_event at h
  rw [findKindAux_filter o k kindKeys hf] at h
  simp only [Option.some_bind] at h
  have hmeta : pyGetDefault (Json.obj o) "meta" (Json.obj []) =
      some ((dictGet o "meta").getD (Json.obj [])) := rfl
  rw [hmeta] at h
  simp only [Option.some_bind, Option.bind_eq_some] at h
  obtain ⟨r1, h1, r2, h2, h3⟩ := h
  obtain ⟨t1, e1⟩ := metaLedgerStep_shape _ _ _ h1
  obtain ⟨t2, e2⟩ := metaTxStep_shape _ _ _ h2
  obtain ⟨t3, e3⟩ := evtFieldsStep_shape _ _ _ _ h3
  subst e1 e2 e3
  exact ⟨t1 ++ t2 ++ t3, by simp⟩

/-- Scanning the single-quoted escaped filter from inside the quotes
consumes the whole region and yields the original text. -/
theorem shellWord_escape (cs : List Char) :
    shellWordQ (replChar sqC escSeq.data cs ++ [sqC]) = some cs := by
  have hbs : ¬(bsC = sqC) := by decide
  induction cs with
  | nil => simp [replChar, shellWordQ, shellWordU]
  | cons c cs ih =>
      rw [escSeq_data] at ih
      by_cases hc : c = sqC
      · subst hc
        simp only [replChar, if_pos rfl, escSeq_data, List.cons_append,
          List.append_assoc]
        simp [shellWordQ, shellWordU, hbs]
        rw [shellWordU.eq_def]
        simp [ih]
      · simp only [replChar, escSeq_data, if_neg hc, List.cons_append]
        simp [shellWordQ, hc, ih]

/-- Two appends differ when the left parts are nonempty and start
with different characters. -/
theorem append_ne_of_head_ne (a b x y : String)
    (h : a.data.head? ≠ b.data.head?) (ha : a.data ≠ []) (hb : b.data ≠ []) :
    a ++ x ≠ b ++ y := by
  intro hEq
  have hd := congrArg String.data hEq
  rw [String.data_append, String.data_append] at hd
  have hh := congrArg List.head? hd
  rw [List.head?_append_of_ne_nil _ ha, List.head?_append_of_ne_nil _ hb] at hh
  exact h hh

/-- The first-processor-not-found object differs from the
range-too-large object of run_pipeline for every stage name and
range. -/
theorem firstNF_ne_tooLarge (n : String) (s e : Int) :
    firstProcessorNotFoundObj n ≠ rangeTooLargePipelineObj s e := by
  intro h
  unfold firstProcessorNotFoundObj rangeTooLargePipelineObj at h
  have h1 := (List.cons.inj h).1
  have h2 := (Prod.mk.injEq _ _ _ _).mp h1
  have h3 : ("First processor " ++ sqS ++ n ++ sqS ++ " not found") =
      ("Ledger range too large (" ++ toString (e - s) ++ "). Maximum is "
        ++ toString MAX_LEDGER_RANGE ++ " ledgers per call.") := by
    have := h2.2
    injection this
  have h4 : ("First processor " ++ (sqS ++ n ++ (sqS ++ " not found"))) =
      ("Ledger range too large (" ++ (toString (e - s) ++ ("). Maximum is "
        ++ (toString MAX_LEDGER_RANGE ++ " ledgers per call.")))) := by
    apply String.ext
    have hd := congrArg String.data h3
    simp only [String.data_append, List.append_assoc] at hd ⊢
    exact hd
  exact append_ne_of_head_ne _ _ _ _ (by decide) (by decide) (by decide) h4

/-- C9: run_pipeline is not total over its pipeline argument: the
empty pipeline (and a whitespace-only pipeline) raises IndexError at
parts[0].strip().split()[0] instead of returning the Empty pipeline
error object, because splitting the empty string on the pipe
separator yields a singleton list holding the empty string, so the
not-parts guard can never fire. -/
theorem C9_empty_pipeline_crash :
    run_pipeline fsNone execNone loadsNone "" 1 2 100 FORMAT_FULL = none ∧
    run_pipeline fsNone execNone loadsNone "   " 1 2 100 FORMAT_FULL = none ∧
    pipelinePrepare fsNone "" 1 2 100 = none ∧
    pySplitOnChar pipeC "" = [""] :=
  ⟨rfl, rfl, rfl, rfl⟩

/-- C2 counterexample: on a decoded event list holding one event with
no kind key, by_type is empty (its counts sum to 0) while
total_events is 1, so the sum does not equal total_events. -/
theorem C2_counterexample :
    summarize_events [Json.obj []] 0 0 100 = some
      { total_events := 1, by_type := [], by_asset := [],
        ledger_range := (0, 0), truncated := false } ∧
    sumCounts ([] : List (String × Nat)) ≠ 1 :=
  ⟨rfl, by decide⟩

/-- C2 amended: on every summary the projection produces, the by_type
counts sum to the number of events carrying at least one kind key,
and this sum equals total_events exactly when every decoded event
carries a kind key. -/
theorem C2_amended_by_type_sum (events : List Json)
    (start_ledger end_ledger limit : Int) (r : Summary)
    (h : summarize_events events start_ledger end_ledger limit = some r) :
    sumCounts r.by_type = events.countP summMatched ∧
    (sumCounts r.by_type = r.total_events ↔
      events.countP summMatched = events.length) := by
  unfold summarize_events at h
  cases ha : summAux events [] [] with
  | none => rw [ha] at h; exact absurd h (by simp)
  | some tcac =>
      rw [ha] at h
      obtain ⟨tc, ac⟩ := tcac
      simp only [Option.map_some'] at h
      have hs := (summAux_sums events [] [] tc ac ha).1
      simp only [sumCounts, List.map_nil, List.sum_nil, Nat.zero_add] at hs
      obtain rfl := Option.some.inj h
      refine ⟨hs, ?_⟩
      show (List.map Prod.snd tc).sum = events.length ↔
        List.countP summMatched events = events.length
      omega

/-- C10: on every summary the projection produces, the by_asset
counts and the by_type counts have the same sum, both equal to the
number of events that carry at least one kind key (each matched event
is counted once under its first matching kind and once under its
asset code, with the unknown default). -/
theorem C10_by_asset_sum_eq (events : List Json)
    (start_ledger end_ledger limit : Int) (r : Summary)
    (h : summarize_events events start_ledger end_ledger limit = some r) :
    sumCounts r.by_asset = sumCounts r.by_type ∧
    sumCounts r.by_asset = events.countP summMatched := by
  unfold summarize_events at h
  cases ha : summAux events [] [] with
  | none => rw [ha] at h; exact absurd h (by simp)
  | some tcac =>
      rw [ha] at h
      obtain ⟨tc, ac⟩ := tcac
      simp only [Option.map_some'] at h
      have hs := summAux_sums events [] [] tc ac ha
      simp only [sumCounts, List.map_nil, List.sum_nil, Nat.zero_add] at hs
      obtain rfl := Option.some.inj h
      exact ⟨hs.2.trans hs.1.symm, hs.2⟩

/-- The truncated flag of every response the extract formatter
produces equals the comparison of the decoded event count against the
limit it was given, in all three formats. -/
theorem formatExtract_trunc (events : List Json)
    (start_ledger end_ledger limit : Int) (format : String) (r : Resp)
    (h : formatExtract events start_ledger end_ledger limit format = some r) :
    truncOf r = some (decide (limit ≤ (events.length : Int))) := by
  unfold formatExtract at h
  by_cases hs : format = FORMAT_SUMMARY
  · rw [if_pos hs] at h
    cases hsum : summarize_events events start_ledger end_ledger limit with
    | none => rw [hsum] at h; exact absurd h (by simp)
    | some su =>
        rw [hsum] at h
        simp only [Option.map_some'] at h
        obtain rfl := Option.some.inj h
        unfold summarize_events at hsum
        cases ha : summAux events [] [] with
        | none => rw [ha] at hsum; exact absurd hsum (by simp)
        | some tcac =>
            rw [ha] at hsum
            simp only [Option.map_some'] at hsum
            obtain rfl := Option.some.inj hsum
            rfl
  · rw [if_neg hs] at h
    by_cases hcp : format = FORMAT_COMPACT
    · rw [if_pos hcp] at h
      cases hm : events.mapM compact_event with
      | none => rw [hm] at h; exact absurd h (by simp)
      | some ce =>
          rw [hm] at h
          simp only [Option.map_some'] at h
          obtain rfl := Option.some.inj h
          rfl
    · rw [if_neg hcp] at h
      obtain rfl := Option.some.inj h
      rfl

/-- The truncated flag of every response the pipeline formatter
produces equals the comparison of the decoded event count against the
limit it was given, in all three formats. -/
theorem formatPipeline_trunc (events : List Json) (pipeline : String)
    (start_ledger end_ledger limit : Int) (format : String) (r : Resp)
    (h : formatPipeline events pipeline start_ledger end_ledger limit
      format = some r) :
    truncOf r = some (decide (limit ≤ (events.length : Int))) := by
  unfold formatPipeline at h
  by_cases hs : format = FORMAT_SUMMARY
  · rw [if_pos hs] at h
    cases hsum : summarize_events events start_ledger end_ledger limit with
    | none => rw [hsum] at h; exact absurd h (by simp)
    | some su =>
        rw [hsum] at h
        simp only [Option.map_some'] at h
        obtain rfl := Option.some.inj h
        unfold summarize_events at hsum
        cases ha : summAux events [] [] with
        | none => rw [ha] at hsum; exact absurd hsum (by simp)
        | some tcac =>
            rw [ha] at hsum
            simp only [Option.map_some'] at hsum
            obtain rfl := Option.some.inj hsum
            rfl
  · rw [if_neg hs] at h
    by_cases hcp : format = FORMAT_COMPACT
    · rw [if_pos hcp] at h
      cases hm : events.mapM compact_event with
      | none => rw [hm] at h; exact absurd h (by simp)
      | some ce =>
          rw [hm] at h
          simp only [Option.map_some'] at h
          obtain rfl := Option.some.inj h
          rfl
    · rw [if_neg hcp] at h
      obtain rfl := Option.some.inj h
      rfl

/-- C5: for every decoded event list and every effective limit in the
interval from 1 to MAX_LIMIT, the truncated field of the produced
response, in full, compact and summary formats alike, is true exactly
when the decoded event count is at least the effective limit. -/
theorem C5_truncated_iff (events : List Json)
    (start_ledger end_ledger limit : Int) (format : String) (r : Resp)
    (h1 : 1 ≤ limit) (h2 : limit ≤ MAX_LIMIT)
    (h : formatExtract events start_ledger end_ledger limit format = some r) :
    truncOf r = some (decide (limit ≤ (events.length : Int))) :=
  formatExtract_trunc events start_ledger end_ledger limit format r h

/-- C5 witness: the full format at limit 1 on no events reports
truncated false. -/
theorem C5_truncated_iff_witness :
    (1 : Int) ≤ 1 ∧ (1 : Int) ≤ MAX_LIMIT ∧
    truncOf (Resp.obj [("events", Json.arr []), ("count", Json.num 0),
      ("truncated", Json.bool false)]) = some false :=
  ⟨by decide, by decide,
    C5_truncated_iff [] 0 0 1 "full" _ (by decide) (by decide) rfl⟩

/-- C6: the compact projection of an event object carrying exactly
one kind key yields a type field equal to that key; detection walks
the fixed ordered kind list and the first present key wins. -/
theorem C6_compact_type (o : List (String × Json)) (k : String)
    (r : List (String × Json))
    (hone : kindKeys.filter (fun t => (dictGet o t).isSome) = [k])
    (h : compact_event (Json.obj o) = some r) :
    dictGet r "type" = some (Json.str k) := by
  obtain ⟨tl, e⟩ := compact_event_type_head o k hone r h
  subst e
  rfl

/-- C6 witness: a transfer-only event compacts to a dict whose type
field is transfer. -/
theorem C6_compact_type_witness :
    kindKeys.filter
      (fun t => (dictGet [("transfer", Json.obj [])] t).isSome) =
        ["transfer"] ∧
    dictGet [("type", Json.str "transfer")] "type" =
      some (Json.str "transfer") :=
  ⟨by decide, C6_compact_type [("transfer", Json.obj [])] "transfer"
    [("type", Json.str "transfer")] (by decide) rfl⟩

/-- C1 counterexample: in the pipeline a | b --x 5 with a resolvable
and b unresolvable, run_pipeline does not reject the pipeline: the
composition succeeds and leaves the unresolved name b in the command
to be executed, instead of aborting with an error naming stage b. -/
theorem C1_counterexample :
    find_processor fsOnlyA "a" = some "a" ∧
    find_processor fsOnlyA "b" = none ∧
    pipelinePrepare fsOnlyA "a | b --x 5" 1 2 100 = some (Except.ok
      ("a --start-ledger 1 --end-ledger 2 -q | b --x 5 | head -100", 100)) :=
  ⟨rfl, rfl, rfl⟩

/-- C1 amended: run_pipeline rejects the pipeline before executing
anything exactly for an unresolvable first stage: when the first
stage processor name does not resolve, the result is the error object
naming the first processor, for every execution oracle; later stages
are not required to resolve. -/
theorem C1_amended_first_stage (fs : FS) (pipeline : String)
    (start_ledger end_ledger limit : Int) (p0 : String)
    (restParts : List String) (name : String)
    (hr1 : 0 ≤ end_ledger - start_ledger)
    (hr2 : end_ledger - start_ledger ≤ MAX_LEDGER_RANGE)
    (hsplit : pySplitOnChar pipeC (pyStrip pipeline) = p0 :: restParts)
    (hname : (pySplitWs (pyStrip p0)).head? = some name)
    (hfind : find_processor fs name = none) :
    pipelinePrepare fs pipeline start_ledger end_ledger limit =
      some (Except.error (firstProcessorNotFoundObj name)) ∧
    ∀ exec loads format,
      run_pipeline fs exec loads pipeline start_ledger end_ledger limit
        format = some (Resp.obj (firstProcessorNotFoundObj name)) := by
  have hprep : pipelinePrepare fs pipeline start_ledger end_ledger limit =
      some (Except.error (firstProcessorNotFoundObj name)) := by
    unfold pipelinePrepare
    rw [if_neg (by omega), if_neg (by omega), hsplit]
    simp only [hname, hfind]
  refine ⟨hprep, fun exec loads format => ?_⟩
  unfold run_pipeline
  rw [hprep]

/-- C1 witness: a single-stage pipeline with an unresolvable first
processor is rejected with the error naming it. -/
theorem C1_amended_first_stage_witness :
    pipelinePrepare fsNone "b --x 5" 1 2 100 =
      some (Except.error (firstProcessorNotFoundObj "b")) :=
  (C1_amended_first_stage fsNone "b --x 5" 1 2 100 "b --x 5" [] "b"
    (by decide) (by decide) rfl rfl rfl).1

/-- C7 counterexample: with the name token-transfer unresolvable, the
result of extract_events is not the claimed two-field object: it
additionally carries the searched list of probed locations. -/
theorem C7_counterexample :
    extract_events fsNone execNone loadsNone "token-transfer" 1 2 none 100
      FORMAT_COMPACT = some (Resp.obj (processorNotFoundObj "token-transfer")) ∧
    processorNotFoundObj "token-transfer" ≠
      [("error", Json.str ("Processor " ++ sqS ++ "token-transfer" ++ sqS
          ++ " not found")),
       ("suggestion", Json.str "Install with: nebu install token-transfer")] := by
  refine ⟨rfl, fun h => ?_⟩
  exact absurd (congrArg List.length h) (by decide)

/-- C7 amended: when token-transfer resolves nowhere, extract_events
returns the object with the not-found error, the install suggestion
and the searched location list, for every execution oracle (so
before any child process is spawned). -/
theorem C7_amended_not_found (fs : FS) (exec : String → Option ExecResult)
    (loads : String → Option Json) (start_ledger end_ledger : Int)
    (filter : Option String) (limit : Int) (format : String)
    (hr1 : 0 ≤ end_ledger - start_ledger)
    (hr2 : end_ledger - start_ledger ≤ MAX_LEDGER_RANGE)
    (hfind : find_processor fs "token-transfer" = none) :
    extract_events fs exec loads "token-transfer" start_ledger end_ledger
        filter limit format =
      some (Resp.obj (processorNotFoundObj "token-transfer")) := by
  unfold extract_events extractPrepare
  rw [if_neg (by omega), if_neg (by omega), hfind]

/-- C7 witness: the amended result at a concrete valid range on the
all-failing filesystem. -/
theorem C7_amended_not_found_witness :
    extract_events fsNone execNone loadsNone "token-transfer" 5 7 none 50
        FORMAT_SUMMARY =
      some (Resp.obj (processorNotFoundObj "token-transfer")) :=
  C7_amended_not_found fsNone execNone loadsNone 5 7 none 50 FORMAT_SUMMARY
    (by decide) (by decide) rfl

/-- C8 counterexample: the empty string is a user-supplied filter for
which no filter stage is inserted at all: the composed command holds
no jq stage. -/
theorem C8_counterexample :
    extractPrepare fsOnlyP "p" 1 2 (some "") 100 =
      Except.ok ("p --start-ledger 1 --end-ledger 2 -q | head -100", 100) ∧
    containsSub "p --start-ledger 1 --end-ledger 2 -q | head -100" "jq" =
      false :=
  ⟨rfl, by decide⟩

/-- C8 amended: for every nonempty user-supplied filter, the composed
command inserts the jq stage strictly between the processor stage and
the terminal head stage, with every single quote of the filter
replaced by the quote-escape sequence; scanning the quoted region
with the shell-word reader consumes it as one word whose value is the
original filter text, so the filter cannot terminate the quoted
string early. -/
theorem C8_amended_filter_escape (fs : FS) (processor path : String)
    (start_ledger end_ledger : Int) (f : String) (limit : Int)
    (hr1 : 0 ≤ end_ledger - start_ledger)
    (hr2 : end_ledger - start_ledger ≤ MAX_LEDGER_RANGE)
    (hfind : find_processor fs processor = some path) (hf : f ≠ "") :
    extractPrepare fs processor start_ledger end_ledger (some f) limit =
      Except.ok (path ++ " --start-ledger " ++ toString start_ledger
        ++ " --end-ledger " ++ toString end_ledger ++ " -q"
        ++ " | jq -c " ++ sqS ++ pyReplaceChar f sqC escSeq ++ sqS
        ++ " | head -" ++ toString (min limit MAX_LIMIT),
        min limit MAX_LIMIT) ∧
    shellWordU (sqC :: ((pyReplaceChar f sqC escSeq).data ++ [sqC])) =
      some f.data := by
  constructor
  · unfold extractPrepare
    rw [if_neg (by omega), if_neg (by omega), hfind]
    simp only [if_pos hf]
  · have h := shellWord_escape f.data
    rw [shellWordU.eq_def]
    simpa using h

/-- C8 witness: the escape and quoting property at a filter that is a
lone single quote. -/
theorem C8_amended_filter_escape_witness :
    extractPrepare fsOnlyP "p" 1 2 (some sqS) 100 =
      Except.ok ("p" ++ " --start-ledger " ++ toString (1 : Int)
        ++ " --end-ledger " ++ toString (2 : Int) ++ " -q"
        ++ " | jq -c " ++ sqS ++ pyReplaceChar sqS sqC escSeq ++ sqS
        ++ " | head -" ++ toString (min (100 : Int) MAX_LIMIT),
        min (100 : Int) MAX_LIMIT) ∧
    shellWordU (sqC :: ((pyReplaceChar sqS sqC escSeq).data ++ [sqC])) =
      some sqS.data :=
  C8_amended_filter_escape fsOnlyP "p" "p" 1 2 sqS 100 (by decide) (by decide)
    rfl (by decide)

/-- C3 counterexample: a caller limit of 0 is not clamped up to 1:
the composed command caps lines at 0 and the effective limit is 0,
below the claimed interval. -/
theorem C3_counterexample :
    extractPrepare fsOnlyP "p" 1 2 none 0 =
      Except.ok ("p --start-ledger 1 --end-ledger 2 -q | head -0", 0) ∧
    ¬((1 : Int) ≤ 0) :=
  ⟨rfl, by decide⟩

/-- C3 amended: the effective limit is min of the caller value and
MAX_LIMIT (clamped from above only, with no lower clamp at 1); this
value is the line cap of the terminal head stage appended to both
composed commands, and it is the threshold compared against the
decoded event count for the truncated flag. -/
theorem C3_amended_limit_clamp :
    (∀ fs processor start_ledger end_ledger filter limit cmd l,
        extractPrepare fs processor start_ledger end_ledger filter limit =
          Except.ok (cmd, l) →
        l = min limit MAX_LIMIT ∧
          ∃ front, cmd = front ++ " | head -" ++ toString l) ∧
    (∀ fs pipeline start_ledger end_ledger limit cmd l,
        pipelinePrepare fs pipeline start_ledger end_ledger limit =
          some (Except.ok (cmd, l)) →
        l = min limit MAX_LIMIT ∧
          ∃ front, cmd = front ++ " | head -" ++ toString l) ∧
    (∀ events start_ledger end_ledger l format r,
        formatExtract events start_ledger end_ledger l format = some r →
        truncOf r = some (decide (l ≤ (events.length : Int)))) ∧
    (∀ events pipeline start_ledger end_ledger l format r,
        formatPipeline events pipeline start_ledger end_ledger l format =
          some r →
        truncOf r = some (decide (l ≤ (events.length : Int)))) := by
  refine ⟨?_, ?_, ?_, ?_⟩
  · intro fs processor start_ledger end_ledger filter limit cmd l h
    simp only [extractPrepare] at h
    by_cases hv : end_ledger - start_ledger < 0
    · rw [if_pos hv] at h; exact absurd h (by simp)
    rw [if_neg hv] at h
    by_cases hw : end_ledger - start_ledger > MAX_LEDGER_RANGE
    · rw [if_pos hw] at h; exact absurd h (by simp)
    rw [if_neg hw] at h
    cases hf : find_processor fs processor with
    | none => rw [hf] at h; exact absurd h (by simp)
    | some path =>
        rw [hf] at h
        obtain ⟨hc, hl⟩ := Prod.mk.inj (Except.ok.inj h)
        subst hl
        exact ⟨rfl, _, hc.symm⟩
  · intro fs pipeline start_ledger end_ledger limit cmd l h
    simp only [pipelinePrepare] at h
    by_cases hv : end_ledger - start_ledger < 0
    · rw [if_pos hv] at h; exact absurd h (by simp)
    rw [if_neg hv] at h
    by_cases hw : end_ledger - start_ledger > MAX_LEDGER_RANGE
    · rw [if_pos hw] at h; exact absurd h (by simp)
    rw [if_neg hw] at h
    cases hsp : pySplitOnChar pipeC (pyStrip pipeline) with
    | nil => rw [hsp] at h; exact absurd h (by simp)
    | cons p0 restParts =>
        rw [hsp] at h
        dsimp only at h
        cases hh : (pySplitWs (pyStrip p0)).head? with
        | none => rw [hh] at h; exact absurd h (by simp)
        | some name =>
            rw [hh] at h
            dsimp only at h
            cases hfp : find_processor fs name with
            | none => rw [hfp] at h; exact absurd h (by simp)
            | some path =>
                rw [hfp] at h
                dsimp only at h
                by_cases hrp : pyJoin " | " (restParts.map pyStrip) = ""
                · rw [if_neg (not_not_intro hrp)] at h
                  obtain ⟨hc, hl⟩ :=
                    Prod.mk.inj (Except.ok.inj (Option.some.inj h))
                  subst hl
                  exact ⟨rfl, _, hc.symm⟩
                · rw [if_pos hrp] at h
                  cases hrr : resolveRest fs restParts with
                  | none => rw [hrr] at h; exact absurd h (by simp)
                  | some rr =>
                      rw [hrr] at h
                      dsimp only at h
                      by_cases hne : rr = []
                      · rw [if_neg (not_not_intro hne)] at h
                        obtain ⟨hc, hl⟩ :=
                          Prod.mk.inj (Except.ok.inj (Option.some.inj h))
                        subst hl
                        exact ⟨rfl, _, hc.symm⟩
                      · rw [if_pos hne] at h
                        obtain ⟨hc, hl⟩ :=
                          Prod.mk.inj (Except.ok.inj (Option.some.inj h))
                        subst hl
                        exact ⟨rfl, _, hc.symm⟩
  · intro events start_ledger end_ledger l format r h
    exact formatExtract_trunc events start_ledger end_ledger l format r h
  · intro events pipeline start_ledger end_ledger l format r h
    exact formatPipeline_trunc events pipeline start_ledger end_ledger l
      format r h

/-- C3 witness: a caller limit of 5000 is clamped to 1000 and that
value is the head cap of the composed command. -/
theorem C3_amended_limit_clamp_witness :
    (1000 : Int) = min 5000 MAX_LIMIT ∧
    ∃ front, "p --start-ledger 1 --end-ledger 2 -q | head -1000" =
      front ++ " | head -" ++ toString (1000 : Int) :=
  C3_amended_limit_clamp.1 fsOnlyP "p" 1 2 none 5000
    "p --start-ledger 1 --end-ledger 2 -q | head -1000" 1000 rfl

/-- The shapes pipelinePrepare can take on a valid ledger range: the
empty-pipeline error, the IndexError crash, the first-processor
error, or a composed command. -/
theorem pipelinePrepare_shapes (fs : FS) (pipeline : String)
    (start_ledger end_ledger limit : Int)
    (hv : ¬(end_ledger - start_ledger < 0))
    (hw : ¬(end_ledger - start_ledger > MAX_LEDGER_RANGE)) :
    pipelinePrepare fs pipeline start_ledger end_ledger limit =
        some (Except.error [("error", Json.str "Empty pipeline")]) ∨
      pipelinePrepare fs pipeline start_ledger end_ledger limit = none ∨
      (∃ name, pipelinePrepare fs pipeline start_ledger end_ledger limit =
        some (Except.error (firstProcessorNotFoundObj name))) ∨
      (∃ pr, pipelinePrepare fs pipeline start_ledger end_ledger limit =
        some (Except.ok pr)) := by
  simp only [pipelinePrepare, if_neg hv, if_neg hw]
  cases hsp : pySplitOnChar pipeC (pyStrip pipeline) with
  | nil => exact Or.inl rfl
  | cons p0 restParts =>
      dsimp only
      cases hh : (pySplitWs (pyStrip p0)).head? with
      | none => exact Or.inr (Or.inl rfl)
      | some name =>
          dsimp only
          cases hfp : find_processor fs name with
          | none => exact Or.inr (Or.inr (Or.inl ⟨name, rfl⟩))
          | some path =>
              dsimp only
              by_cases hrp : pyJoin " | " (restParts.map pyStrip) = ""
              · rw [if_neg (not_not_intro hrp)]
                exact Or.inr (Or.inr (Or.inr ⟨_, rfl⟩))
              · rw [if_pos hrp]
                cases hrr : resolveRest fs restParts with
                | none => exact Or.inr (Or.inl rfl)
                | some rr =>
                    dsimp only
                    exact Or.inr (Or.inr (Or.inr ⟨_, rfl⟩))

/-- The shapes extractPrepare can take on a valid ledger range: the
processor-not-found error or a composed command. -/
theorem extractPrepare_shapes (fs : FS) (processor : String)
    (start_ledger end_ledger : Int) (filter : Option String) (limit : Int)
    (hv : ¬(end_ledger - start_ledger < 0))
    (hw : ¬(end_ledger - start_ledger > MAX_LEDGER_RANGE)) :
    extractPrepare fs processor start_ledger end_ledger filter limit =
        Except.error (processorNotFoundObj processor) ∨
      (∃ pr, extractPrepare fs processor start_ledger end_ledger filter limit =
        Except.ok pr) := by
  simp only [extractPrepare, if_neg hv, if_neg hw]
  cases hf : find_processor fs processor with
  | none => exact Or.inl rfl
  | some path => exact Or.inr ⟨_, rfl⟩

/-- C4: for all integer bounds, validation yields the inverted-range
error exactly when end_ledger is below start_ledger and the too-large
error exactly when the span exceeds MAX_LEDGER_RANGE (its suggestion
text, baked into the error object, proposes the sub-range from
start_ledger to start_ledger plus MAX_LEDGER_RANGE); on either
failure the result of both tools is the same for every filesystem,
execution and parsing oracle, so the failure is returned before any
processor is resolved or any child process is spawned. -/
theorem C4_range_validation (fs : FS) (processor pipeline : String)
    (filter : Option String) (limit start_ledger end_ledger : Int) :
    (extractPrepare fs processor start_ledger end_ledger filter limit =
        Except.error rangeInvertedObj ↔ end_ledger < start_ledger) ∧
    (extractPrepare fs processor start_ledger end_ledger filter limit =
        Except.error (rangeTooLargeExtractObj start_ledger end_ledger) ↔
      MAX_LEDGER_RANGE < end_ledger - start_ledger) ∧
    (pipelinePrepare fs pipeline start_ledger end_ledger limit =
        some (Except.error rangeInvertedObj) ↔
      end_ledger < start_ledger) ∧
    (pipelinePrepare fs pipeline start_ledger end_ledger limit =
        some (Except.error
          (rangeTooLargePipelineObj start_ledger end_ledger)) ↔
      MAX_LEDGER_RANGE < end_ledger - start_ledger) ∧
    ((end_ledger < start_ledger ∨
        MAX_LEDGER_RANGE < end_ledger - start_ledger) →
      ∀ (fs2 : FS) (exec exec2 : String → Option ExecResult)
        (loads loads2 : String → Option Json) (format : String),
        extract_events fs exec loads processor start_ledger end_ledger
            filter limit format =
          extract_events fs2 exec2 loads2 processor start_ledger end_ledger
            filter limit format ∧
        run_pipeline fs exec loads pipeline start_ledger end_ledger limit
            format =
          run_pipeline fs2 exec2 loads2 pipeline start_ledger end_ledger
            limit format) := by
  by_cases hv : end_ledger - start_ledger < 0
  · have hp : ∀ g : FS,
        extractPrepare g processor start_ledger end_ledger filter limit =
          Except.error rangeInvertedObj := by
      intro g
      simp only [extractPrepare]
      rw [if_pos hv]
    have hpp : ∀ g : FS,
        pipelinePrepare g pipeline start_ledger end_ledger limit =
          some (Except.error rangeInvertedObj) := by
      intro g
      simp only [pipelinePrepare]
      rw [if_pos hv]
    refine ⟨iff_of_true (hp fs) (by omega), ?_,
      iff_of_true (hpp fs) (by omega), ?_, ?_⟩
    · refine iff_of_false ?_ (by simp only [MAX_LEDGER_RANGE]; omega)
      rw [hp fs]
      intro hx
      exact absurd (congrArg List.length (Except.error.inj hx)) (by simp [rangeInvertedObj, rangeTooLargeExtractObj,
            rangeTooLargePipelineObj, processorNotFoundObj,
            firstProcessorNotFoundObj])
    · refine iff_of_false ?_ (by simp only [MAX_LEDGER_RANGE]; omega)
      rw [hpp fs]
      intro hx
      exact absurd (congrArg List.length (Except.error.inj
        (Option.some.inj hx))) (by simp [rangeInvertedObj, rangeTooLargeExtractObj,
            rangeTooLargePipelineObj, processorNotFoundObj,
            firstProcessorNotFoundObj])
    · intro _ fs2 exec exec2 loads loads2 format
      constructor
      · have hA : ∀ (g : FS) ex ld,
            extract_events g ex ld processor start_ledger end_ledger filter
              limit format = some (.obj rangeInvertedObj) := by
          intro g ex ld
          unfold extract_events
          rw [hp g]
        rw [hA fs exec loads, hA fs2 exec2 loads2]
      · have hB : ∀ (g : FS) ex ld,
            run_pipeline g ex ld pipeline start_ledger end_ledger limit
              format = some (.obj rangeInvertedObj) := by
          intro g ex ld
          unfold run_pipeline
          rw [hpp g]
        rw [hB fs exec loads, hB fs2 exec2 loads2]
  · by_cases hw : end_ledger - start_ledger > MAX_LEDGER_RANGE
    · have hp : ∀ g : FS,
          extractPrepare g processor start_ledger end_ledger filter limit =
            Except.error (rangeTooLargeExtractObj start_ledger end_ledger) := by
        intro g
        simp only [extractPrepare]
        rw [if_neg hv, if_pos hw]
      have hpp : ∀ g : FS,
          pipelinePrepare g pipeline start_ledger end_ledger limit =
            some (Except.error
              (rangeTooLargePipelineObj start_ledger end_ledger)) := by
        intro g
        simp only [pipelinePrepare]
        rw [if_neg hv, if_pos hw]
      refine ⟨?_, iff_of_true (hp fs) hw, ?_, iff_of_true (hpp fs) hw, ?_⟩
      · refine iff_of_false ?_ (by simp only [MAX_LEDGER_RANGE] at hw; omega)
        rw [hp fs]
        intro hx
        exact absurd (congrArg List.length (Except.error.inj hx)) (by simp [rangeInvertedObj, rangeTooLargeExtractObj,
            rangeTooLargePipelineObj, processorNotFoundObj,
            firstProcessorNotFoundObj])
      · refine iff_of_false ?_ (by simp only [MAX_LEDGER_RANGE] at hw; omega)
        rw [hpp fs]
        intro hx
        exact absurd (congrArg List.length (Except.error.inj
          (Option.some.inj hx))) (by simp [rangeInvertedObj, rangeTooLargeExtractObj,
            rangeTooLargePipelineObj, processorNotFoundObj,
            firstProcessorNotFoundObj])
      · intro _ fs2 exec exec2 loads loads2 format
        constructor
        · have hA : ∀ (g : FS) ex ld,
              extract_events g ex ld processor start_ledger end_ledger filter
                limit format = some (.obj
                  (rangeTooLargeExtractObj start_ledger end_ledger)) := by
            intro g ex ld
            unfold extract_events
            rw [hp g]
          rw [hA fs exec loads, hA fs2 exec2 loads2]
        · have hB : ∀ (g : FS) ex ld,
              run_pipeline g ex ld pipeline start_ledger end_ledger limit
                format = some (.obj
                  (rangeTooLargePipelineObj start_ledger end_ledger)) := by
            intro g ex ld
            unfold run_pipeline
            rw [hpp g]
          rw [hB fs exec loads, hB fs2 exec2 loads2]
    · have hne1 : extractPrepare fs processor start_ledger end_ledger filter
          limit ≠ Except.error rangeInvertedObj := by
        intro hx
        rcases extractPrepare_shapes fs processor start_ledger end_ledger
            filter limit hv hw with hsh | ⟨pr, hsh⟩
        · rw [hsh] at hx
          exact absurd (congrArg List.length (Except.error.inj hx)) (by simp [rangeInvertedObj, rangeTooLargeExtractObj,
            rangeTooLargePipelineObj, processorNotFoundObj,
            firstProcessorNotFoundObj])
        · rw [hsh] at hx
          exact absurd hx (by simp)
      have hne2 : extractPrepare fs processor start_ledger end_ledger filter
          limit ≠
          Except.error (rangeTooLargeExtractObj start_ledger end_ledger) := by
        intro hx
        rcases extractPrepare_shapes fs processor start_ledger end_ledger
            filter limit hv hw with hsh | ⟨pr, hsh⟩
        · rw [hsh] at hx
          exact absurd (congrArg List.length (Except.error.inj hx)) (by simp [rangeInvertedObj, rangeTooLargeExtractObj,
            rangeTooLargePipelineObj, processorNotFoundObj,
            firstProcessorNotFoundObj])
        · rw [hsh] at hx
          exact absurd hx (by simp)
      have hne3 : pipelinePrepare fs pipeline start_ledger end_ledger limit ≠
          some (Except.error rangeInvertedObj) := by
        intro hx
        rcases pipelinePrepare_shapes fs pipeline start_ledger end_ledger
            limit hv hw with hsh | hsh | ⟨name, hsh⟩ | ⟨pr, hsh⟩
        · rw [hsh] at hx
          have h1 := (Prod.mk.inj (List.cons.inj (Except.error.inj
            (Option.some.inj hx))).1).2
          injection h1 with h2
          exact absurd h2 (by simp [rangeInvertedObj, rangeTooLargeExtractObj,
            rangeTooLargePipelineObj, processorNotFoundObj,
            firstProcessorNotFoundObj])
        · rw [hsh] at hx
          exact absurd hx (by simp)
        · rw [hsh] at hx
          exact absurd (congrArg List.length (Except.error.inj
            (Option.some.inj hx))) (by simp [rangeInvertedObj, rangeTooLargeExtractObj,
            rangeTooLargePipelineObj, processorNotFoundObj,
            firstProcessorNotFoundObj])
        · rw [hsh] at hx
          exact absurd hx (by simp)
      have hne4 : pipelinePrepare fs pipeline start_ledger end_ledger limit ≠
          some (Except.error
            (rangeTooLargePipelineObj start_ledger end_ledger)) := by
        intro hx
        rcases pipelinePrepare_shapes fs pipeline start_ledger end_ledger
            limit hv hw with hsh | hsh | ⟨name, hsh⟩ | ⟨pr, hsh⟩
        · rw [hsh] at hx
          exact absurd (congrArg List.length (Except.error.inj
            (Option.some.inj hx))) (by simp [rangeInvertedObj, rangeTooLargeExtractObj,
            rangeTooLargePipelineObj, processorNotFoundObj,
            firstProcessorNotFoundObj])
        · rw [hsh] at hx
          exact absurd hx (by simp)
        · rw [hsh] at hx
          exact firstNF_ne_tooLarge name start_ledger end_ledger
            (Except.error.inj (Option.some.inj hx))
        · rw [hsh] at hx
          exact absurd hx (by simp)
      refine ⟨iff_of_false hne1 (by omega), iff_of_false hne2 hw,
        iff_of_false hne3 (by omega), iff_of_false hne4 hw, ?_⟩
      intro hor
      rcases hor with h | h
      · exact absurd (by omega : end_ledger - start_ledger < 0) hv
      · exact absurd h hw

/-- C4 witness: an inverted range is rejected by extract_events and
an oversized range is rejected by run_pipeline, at concrete inputs. -/
theorem C4_range_validation_witness :
    extractPrepare fsNone "p" 5 3 none 100 =
      Except.error rangeInvertedObj ∧
    pipelinePrepare fsNone "q" 0 500 100 =
      some (Except.error (rangeTooLargePipelineObj 0 500)) :=
  ⟨(C4_range_validation fsNone "p" "q" none 100 5 3).1.mpr (by decide),
   (C4_range_validation fsNone "p" "q" none 100 0 500).2.2.2.1.mpr
     (by decide)⟩

/-- C2 witness: one fee event with no asset code is counted once in
by_type, and the sum equals total_events since every event carries a
kind key. -/
theorem C2_amended_by_type_sum_witness :
    sumCounts (Summary.mk 1 [("fee", 1)] [(Json.str "unknown", 1)] (0, 5)
        false).by_type =
      List.countP summMatched [Json.obj [("fee", Json.obj [])]] ∧
    (sumCounts (Summary.mk 1 [("fee", 1)] [(Json.str "unknown", 1)] (0, 5)
        false).by_type =
        (Summary.mk 1 [("fee", 1)] [(Json.str "unknown", 1)] (0, 5)
          false).total_events ↔
      List.countP summMatched [Json.obj [("fee", Json.obj [])]] =
        List.length [Json.obj [("fee", Json.obj [])]]) :=
  C2_amended_by_type_sum [Json.obj [("fee", Json.obj [])]] 0 5 100
    (Summary.mk 1 [("fee", 1)] [(Json.str "unknown", 1)] (0, 5) false) rfl

/-- C10 witness: one mint event with asset USDC contributes once to
each counter, with equal sums. -/
theorem C10_by_asset_sum_eq_witness :
    sumCounts (Summary.mk 1 [("mint", 1)] [(Json.str "USDC", 1)] (0, 0)
        false).by_asset =
      sumCounts (Summary.mk 1 [("mint", 1)] [(Json.str "USDC", 1)] (0, 0)
        false).by_type ∧
    sumCounts (Summary.mk 1 [("mint", 1)] [(Json.str "USDC", 1)] (0, 0)
        false).by_asset =
      List.countP summMatched
        [Json.obj [("mint", Json.obj [("assetCode", Json.str "USDC")])]] :=
  C10_by_asset_sum_eq
    [Json.obj [("mint", Json.obj [("assetCode", Json.str "USDC")])]] 0 0 100
    (Summary.mk 1 [("mint", 1)] [(Json.str "USDC", 1)] (0, 0) false) rfl
